import Mathlib

/-!
Verification of the Santorini board game rules engine.

This file gives a shallow embedding of the rules engine found in main.py
(classes Tile, Worker, GodCard, Board, Game, Hint) and of the card
assignment performed by SantoriniGUI.new_game in gui.py, and proves
properties of the embedded definitions.

Conventions of the embedding:
- board coordinates are pairs of integers, so that out-of-bounds
  coordinates (including negative ones) are representable;
- tile levels are natural numbers 0..4, where 4 stands for DOME
  (Level.DOME has value 4 in the source);
- workers are identified by indices 0..3; player i owns workers 2i and
  2i+1, mirroring the order in which Player objects create their workers;
- Python methods that mutate objects in place become functions from the
  game state to a new game state, paired with the boolean result the
  Python method returns where it returns one;
- the GUI object in the source is only used for status messages and
  highlighting, which carry no engine state; all branches of the source
  that only touch the GUI are state-preserving here.
-/

namespace Santorini

/-- A board coordinate: a row and a column, as integers. -/
abbrev Pos := Int × Int

/-- The DOME level value (Level.DOME in the source has value 4). -/
def domeLevel : Nat := 4

/-- A tile of the board: a build level and an optional occupying worker id. -/
structure Tile where
  level : Nat
  worker : Option Nat
deriving DecidableEq

/-- Tile.is_dome from the source: the tile is at the DOME level. -/
def Tile.isDome (t : Tile) : Bool := t.level == domeLevel

/-- Tile.build from the source: fails when the tile is occupied or a dome;
otherwise raises LEVEL3 to DOME and any other level by one.  Returns the
boolean result together with the updated tile. -/
def Tile.build (t : Tile) : Bool × Tile :=
  if t.worker ≠ none || t.isDome then (false, t)
  else if t.level = 3 then (true, { t with level := domeLevel })
  else (true, { t with level := t.level + 1 })

/-- A worker piece: owning player index, current position and previous
position (both absent until the worker is placed or moved). -/
structure Worker where
  player : Nat
  position : Option Pos
  prev_position : Option Pos
deriving DecidableEq

/-- The game board: a size (always 5 in play) and a tile for every
integer coordinate; only coordinates inside the board are ever read. -/
structure Board where
  size : Nat
  grid : Pos → Tile

/-- Board.is_valid_position from the source: both coordinates lie in
the interval from 0 inclusive to the board size exclusive. -/
def Board.is_valid_position (b : Board) (p : Pos) : Bool :=
  decide (0 ≤ p.1) && decide (p.1 < (b.size : Int)) &&
  decide (0 ≤ p.2) && decide (p.2 < (b.size : Int))

/-- Board.get_block from the source: the tile at a position, or none for
an out-of-bounds position (the source returns None there). -/
def Board.get_block (b : Board) (p : Pos) : Option Tile :=
  if b.is_valid_position p then some (b.grid p) else none

/-- Board.get_adjacent_positions from the source: the Moore neighborhood
(the source loops r over row-1..row+1 and c over col-1..col+1 in that
order), excluding the position itself and clipped to the board. -/
def Board.get_adjacent_positions (b : Board) (p : Pos) : List Pos :=
  [(p.1 - 1, p.2 - 1), (p.1 - 1, p.2), (p.1 - 1, p.2 + 1),
   (p.1, p.2 - 1), (p.1, p.2), (p.1, p.2 + 1),
   (p.1 + 1, p.2 - 1), (p.1 + 1, p.2), (p.1 + 1, p.2 + 1)].filter
    (fun q => q != p && b.is_valid_position q)

/-- The loop body condition of Board.get_valid_moves: the adjacent tile is
unoccupied, not a dome, and its level difference from the current level is
at most one, where a difference of exactly one is additionally rejected
when the athena_active flag is set.  Adjacent positions are always valid,
so get_block is always some here; the none branch is unreachable. -/
def moveAllowed (b : Board) (curLevel : Nat) (athena_active : Bool) (q : Pos) : Bool :=
  match b.get_block q with
  | some t =>
      t.worker == none && !t.isDome &&
      decide ((t.level : Int) - (curLevel : Int) ≤ 1) &&
      !(((t.level : Int) - (curLevel : Int)) == 1 && athena_active)
  | none => false

/-- Board.get_valid_moves from the source: the empty list for an invalid
position, otherwise the adjacent positions passing the move filter. -/
def Board.get_valid_moves (b : Board) (p : Pos) (athena_active : Bool) : List Pos :=
  if !b.is_valid_position p then []
  else (b.get_adjacent_positions p).filter (moveAllowed b (b.grid p).level athena_active)

/-- The loop body condition of Board.get_valid_builds: the adjacent tile
is unoccupied and not a dome. -/
def buildAllowed (b : Board) (q : Pos) : Bool :=
  match b.get_block q with
  | some t => t.worker == none && !t.isDome
  | none => false

/-- Board.get_valid_builds from the source: the empty list for an invalid
position, otherwise the adjacent positions passing the build filter. -/
def Board.get_valid_builds (b : Board) (p : Pos) : List Pos :=
  if !b.is_valid_position p then []
  else (b.get_adjacent_positions p).filter (buildAllowed b)

/-- Overwrite the occupancy slot of one tile, as the assignments to
tile.worker in the source do. -/
def Board.set_worker (b : Board) (p : Pos) (w : Option Nat) : Board :=
  { b with grid := fun q => if q = p then { b.grid q with worker := w } else b.grid q }

/-- Overwrite one tile, as the in-place tile mutations of the source do. -/
def Board.set_tile (b : Board) (p : Pos) (t : Tile) : Board :=
  { b with grid := fun q => if q = p then t else b.grid q }

/-- Board.get_valid_builds_with_zeus from the source: the ordinary build
targets, extended with the own position of the worker when that tile is
occupied, not a dome and of level below 3. -/
def Board.get_valid_builds_with_zeus (b : Board) (p : Pos) : List Pos :=
  let vb := b.get_valid_builds p
  match b.get_block p with
  | some t =>
      if t.worker ≠ none && !t.isDome && decide (t.level < 3) then vb ++ [p] else vb
  | none => vb

/-- The god card variants handed out by the GUI (subclasses of GodCard in
the source).  The base GodCard class, whose can_use_power is constantly
False, is never handed to a player by new_game; a player without a card is
modelled by the none value of an Option of this type. -/
inductive GodKind
  | artemis
  | demeter
  | zeus
deriving DecidableEq

/-- The can_use_power methods of the GodCard subclasses.  Each is only
ever consulted for a placed worker in the source; for an unplaced worker
the source would fault, which we model as false.
- Artemis: the worker has a valid move besides its previous position
  (the source removes the previous position from the list when present).
- Demeter: the worker has more than one valid build.
- Zeus: the tile of the worker exists, is not a dome and has level
  below 3. -/
def can_use_power (k : GodKind) (b : Board) (w : Worker) : Bool :=
  match w.position with
  | none => false
  | some p =>
    match k with
    | .artemis =>
        let vm := b.get_valid_moves p false
        let vm2 := match w.prev_position with
          | some pp => vm.erase pp
          | none => vm
        !vm2.isEmpty
    | .demeter => decide (1 < (b.get_valid_builds p).length)
    | .zeus =>
        match b.get_block p with
        | some t => !t.isDome && decide (t.level < 3)
        | none => false

/-- The phase strings of the Game class. -/
inductive Phase
  | setup
  | place
  | select
  | move
  | build
  | second_move
  | second_build
deriving DecidableEq

/-- The type tag of the second_action dictionary of the Game class. -/
inductive ActionType
  | move
  | build
deriving DecidableEq

/-- The second_action dictionary of the Game class: the kind of bonus
action in progress and the position of the first action. -/
structure SecondAction where
  type : ActionType
  first_pos : Pos
deriving DecidableEq

/-- The engine state of the Game class.  Fields that exist only for the
GUI or for logging (gui, last_move, last_build, game_history, game_mode,
start_time, timers) are omitted: no claim reads them and they never feed
back into the rules logic.  Hint counts are integers so that the
non-negativity of the pools is a real statement. -/
structure Game where
  board : Board
  god_cards : Nat → Option GodKind
  workers : Nat → Worker
  num_players : Nat
  current_player_index : Nat
  winner : Option Nat
  turn_count : Nat
  athena_activated : Bool
  selected_worker : Option Nat
  phase : Phase
  second_action : Option SecondAction
  god_power_active : Bool
  hint_counts : Nat → Int

/-- The worker ids belonging to a player: player i owns workers 2i and
2i+1, in the order the Player constructor creates them. -/
def playerWorkerIds (i : Nat) : List Nat := [2 * i, 2 * i + 1]

/-- Worker.move_to from the source, lifted to the game state: fails on an
invalid, occupied or domed target; otherwise vacates the prior tile when
there is one, occupies the target tile, and shifts position into
prev_position.  Returns the boolean result of the Python method. -/
def Game.move_to (g : Game) (wid : Nat) (newPos : Pos) : Bool × Game :=
  let w := g.workers wid
  if !g.board.is_valid_position newPos then (false, g)
  else
    match g.board.get_block newPos with
    | none => (false, g)
    | some target =>
      if target.worker ≠ none || target.isDome then (false, g)
      else
        let b1 : Board :=
          match w.position with
          | some op => g.board.set_worker op none
          | none => g.board
        (true,
          { g with
            board := b1.set_worker newPos (some wid),
            workers := fun i =>
              if i = wid then { w with prev_position := w.position, position := some newPos }
              else g.workers i })

/-- Move.execute from the source: fails on an invalid target or a target
outside the valid moves of the source position (computed with the athena
flag off, as at the call site in Move.execute); otherwise performs the
move and derives the winning flag from the destination level.  Returns
(success, is_winning_move, new state). -/
def Game.move_execute (g : Game) (wid : Nat) (from_pos to_pos : Pos) : Bool × Bool × Game :=
  if !g.board.is_valid_position to_pos then (false, false, g)
  else if to_pos ∈ g.board.get_valid_moves from_pos false then
    if (g.move_to wid to_pos).1 then
      (true, (((g.move_to wid to_pos).2.board.grid to_pos).level == 3), (g.move_to wid to_pos).2)
    else (false, false, (g.move_to wid to_pos).2)
  else (false, false, g)

/-- Build.execute from the source: fails on an invalid target or a target
outside the valid builds from the worker position; otherwise builds on the
target tile via Tile.build. -/
def Game.build_execute (g : Game) (position worker_pos : Pos) : Bool × Game :=
  if !g.board.is_valid_position position then (false, g)
  else if position ∈ g.board.get_valid_builds worker_pos then
    match g.board.get_block position with
    | some t => ((t.build).1, { g with board := g.board.set_tile position (t.build).2 })
    | none => (false, g)
  else (false, g)

/-- Game.check_game_over from the source: only acts in the select phase
with no winner; declares the other player winner when no worker of the
current player has a position and a nonempty valid move list.  The
source tests worker.position for truthiness; every coordinate pair is
truthy in Python, so only an unset position fails the test. -/
def Game.check_game_over (g : Game) : Game :=
  if g.phase ≠ Phase.select || g.winner ≠ none then g
  else if (playerWorkerIds g.current_player_index).any (fun wid =>
      match (g.workers wid).position with
      | some p => !(g.board.get_valid_moves p g.athena_activated).isEmpty
      | none => false) then g
  else { g with winner := some ((g.current_player_index + 1) % g.num_players) }

/-- Game.next_turn from the source: advance the player index, bump the
turn count, clear the selection, the phase, the second action and the god
power flag, then run the stalemate check.  Timer and GUI calls carry no
engine state. -/
def Game.next_turn (g : Game) : Game :=
  Game.check_game_over
    { g with
      current_player_index := (g.current_player_index + 1) % g.num_players,
      turn_count := g.turn_count + 1,
      selected_worker := none,
      phase := Phase.select,
      second_action := none,
      god_power_active := false }

/-- Game._handle_select_phase from the source: clicking a tile holding a
worker of the current player with at least one valid move selects it and
moves to the move phase; every other click only produces a status
message. -/
def Game.handle_select_phase (g : Game) (position : Pos) : Game :=
  match g.board.get_block position with
  | some t =>
    match t.worker with
    | some wid =>
      if (g.workers wid).player ≠ g.current_player_index then g
      else if !(g.board.get_valid_moves position g.athena_activated).isEmpty then
        { g with selected_worker := some wid, phase := Phase.move }
      else g
    | none => g
  | none => g

/-- The continuation of Game._handle_move_phase after a successful move
of worker wid from wp to position: a winning move sets the winner to the
player of the worker; otherwise, when that player holds Artemis with the
power active and can use it, and a second move besides the vacated
position exists, the phase becomes second_move with the second action
recorded; otherwise the phase becomes build. -/
def moveOutcome (g2 : Game) (wid : Nat) (wp position : Pos) (win : Bool) : Game :=
  if win then { g2 with winner := some ((g2.workers wid).player) }
  else
    if (g2.god_cards ((g2.workers wid).player) == some GodKind.artemis) &&
       g2.god_power_active &&
       can_use_power GodKind.artemis g2.board (g2.workers wid) then
      if !((g2.board.get_valid_moves position g2.athena_activated).erase wp).isEmpty then
        { g2 with phase := Phase.second_move,
                  second_action := some ⟨ActionType.move, position⟩ }
      else { g2 with phase := Phase.build }
    else { g2 with phase := Phase.build }

/-- Game._handle_move_phase from the source: clicking a valid destination
executes the move and hands the result to moveOutcome.  A selected
worker always has a position in play; the none branch mirrors a state the
source cannot reach without faulting. -/
def Game.handle_move_phase (g : Game) (position : Pos) : Game :=
  match g.selected_worker with
  | none => g
  | some wid =>
    match (g.workers wid).position with
    | none => g
    | some wp =>
      if position ∈ g.board.get_valid_moves wp g.athena_activated then
        if (g.move_execute wid wp position).1 then
          moveOutcome (g.move_execute wid wp position).2.2 wid wp position
            (g.move_execute wid wp position).2.1
        else (g.move_execute wid wp position).2.2
      else g

/-- The legal destinations of the second move in
Game._handle_second_move_phase: the valid moves of worker wid from its
position wp, minus the previous position of the worker (the source
removes it from the list when present; List.erase does nothing when it is
absent, matching that guard). -/
def secondMoveTargets (g : Game) (wid : Nat) (wp : Pos) : List Pos :=
  match (g.workers wid).prev_position with
  | some pp => (g.board.get_valid_moves wp g.athena_activated).erase pp
  | none => g.board.get_valid_moves wp g.athena_activated

/-- Game._handle_second_move_phase from the source: requires a selected
worker and a second action of move type; the valid destinations are the
valid moves of the worker minus its previous position; a winning second
move sets the winner, any other successful second move advances to the
build phase. -/
def Game.handle_second_move_phase (g : Game) (position : Pos) : Game :=
  match g.selected_worker, g.second_action with
  | some wid, some sa =>
    if sa.type ≠ ActionType.move then g
    else
      match (g.workers wid).position with
      | none => g
      | some wp =>
        if position ∈ secondMoveTargets g wid wp then
          if (g.move_execute wid wp position).1 then
            if (g.move_execute wid wp position).2.1 then
              { (g.move_execute wid wp position).2.2 with
                winner := some (((g.move_execute wid wp position).2.2.workers wid).player) }
            else { (g.move_execute wid wp position).2.2 with phase := Phase.build }
          else (g.move_execute wid wp position).2.2
        else g
  | _, _ => g

/-- The Zeus build under the worker in Game._handle_build_phase: the
worker is temporarily removed from the tile, the tile is built on via
Tile.build, and the worker is put back. -/
def zeusSelfBuild (t : Tile) : Tile :=
  Tile.mk ((Tile.build (Tile.mk t.level none)).2.level) t.worker

/-- The build targets computed at the start of Game._handle_build_phase:
the Zeus-extended ones when the current player holds Zeus with the power
active, the plain ones otherwise. -/
def buildTargets (g : Game) (wp : Pos) : List Pos :=
  if g.god_power_active && (g.god_cards g.current_player_index == some GodKind.zeus) then
    g.board.get_valid_builds_with_zeus wp
  else g.board.get_valid_builds wp

/-- The continuation of Game._handle_build_phase after a successful
normal build at position by worker wid: for a Demeter player with the
power active and another legal target in the original target list, the
phase becomes second_build with the second action recorded; otherwise the
turn ends. -/
def buildOutcome (g2 : Game) (wid : Nat) (valid_builds : List Pos) (position : Pos) : Game :=
  if (g2.god_cards ((g2.workers wid).player) == some GodKind.demeter) &&
     g2.god_power_active &&
     valid_builds.any (fun pos => pos != position) then
    if !(valid_builds.filter (fun pos => pos != position)).isEmpty then
      { g2 with phase := Phase.second_build,
                second_action := some ⟨ActionType.build, position⟩ }
    else g2.next_turn
  else g2.next_turn

/-- Game._handle_build_phase from the source: with a selected worker, the
valid build targets come from buildTargets.  Building on the own tile
of the worker (the Zeus case) temporarily removes the worker, builds, puts
the worker back and ends the turn.  A successful normal build is handed to
buildOutcome. -/
def Game.handle_build_phase (g : Game) (position : Pos) : Game :=
  match g.selected_worker with
  | none => g
  | some wid =>
    match (g.workers wid).position with
    | none => g
    | some wp =>
      if position ∈ buildTargets g wp then
        if position = wp then
          match g.board.get_block position with
          | some t =>
            if !t.isDome && decide (t.level < 3) then
              Game.next_turn
                { g with board := g.board.set_tile position (zeusSelfBuild t) }
            else g
          | none => g
        else
          if (g.build_execute position wp).1 then
            buildOutcome (g.build_execute position wp).2 wid (buildTargets g wp) position
          else (g.build_execute position wp).2
      else g

/-- Game._handle_second_build_phase from the source: requires a selected
worker and a second action of build type; the valid targets are the valid
builds of the worker minus the first build position; a successful build
ends the turn. -/
def Game.handle_second_build_phase (g : Game) (position : Pos) : Game :=
  match g.selected_worker, g.second_action with
  | some wid, some sa =>
    if sa.type ≠ ActionType.build then g
    else
      match (g.workers wid).position with
      | none => g
      | some wp =>
        if position ∈ (g.board.get_valid_builds wp).filter (fun pos => pos != sa.first_pos) then
          if (g.build_execute position wp).1 then (g.build_execute position wp).2.next_turn
          else (g.build_execute position wp).2
        else g
  | _, _ => g

/-- The continuation of Game._handle_place_phase after a successful
placement for the player cur: once both of that player workers stand, the
player index advances, and once all workers of all players stand, the
phase becomes select and turn counting begins. -/
def placeAdvance (g2 : Game) (cur : Nat) : Game :=
  if (playerWorkerIds cur).all (fun w => (g2.workers w).position ≠ none) then
    if (List.range g2.num_players).all (fun pl =>
        (playerWorkerIds pl).all (fun w => (g2.workers w).position ≠ none)) then
      { g2 with current_player_index := (cur + 1) % g2.num_players,
                phase := Phase.select, turn_count := g2.turn_count + 1,
                selected_worker := none, second_action := none }
    else { g2 with current_player_index := (cur + 1) % g2.num_players }
  else g2

/-- Game._handle_place_phase from the source: place the first unplaced
worker of the current player at the clicked position and hand the result
to placeAdvance.  When the current player has no unplaced worker left,
next_turn runs. -/
def Game.handle_place_phase (g : Game) (position : Pos) : Game :=
  match (playerWorkerIds g.current_player_index).find?
      (fun wid => (g.workers wid).position = none) with
  | some wid =>
    if (g.move_to wid position).1 then
      placeAdvance (g.move_to wid position).2 g.current_player_index
    else (g.move_to wid position).2
  | none => g.next_turn

/-- Game.handle_tile_click from the source: refused outright once a
winner is set; otherwise dispatches on the current phase.  In the setup
phase no branch applies and the click does nothing. -/
def Game.handle_tile_click (g : Game) (row col : Int) : Game :=
  if g.winner ≠ none then g
  else
    match g.phase with
    | Phase.place => g.handle_place_phase (row, col)
    | Phase.select => g.handle_select_phase (row, col)
    | Phase.move => g.handle_move_phase (row, col)
    | Phase.build => g.handle_build_phase (row, col)
    | Phase.second_move => g.handle_second_move_phase (row, col)
    | Phase.second_build => g.handle_second_build_phase (row, col)
    | Phase.setup => g

/-- Game.activate_god_power from the source: fails without a card, in a
phase outside select, move and build, or when the power is already active
this turn; otherwise sets the god power flag.  The can_use_power predicate
of the card is never consulted here. -/
def Game.activate_god_power (g : Game) : Bool × Game :=
  match g.god_cards g.current_player_index with
  | none => (false, g)
  | some _ =>
    if g.phase ∉ [Phase.select, Phase.move, Phase.build] then (false, g)
    else if g.god_power_active then (false, g)
    else (true, { g with god_power_active := true })

/-- Game.skip_second_action from the source: in the second_move phase the
phase falls back to build; in the second_build phase the turn ends; in any
other phase nothing happens. -/
def Game.skip_second_action (g : Game) : Game :=
  if g.phase = Phase.second_move then { g with phase := Phase.build }
  else if g.phase = Phase.second_build then g.next_turn
  else g

/-- Game.handle_timeout from the source: when no winner is set, the
player other than the current one becomes the winner. -/
def Game.handle_timeout (g : Game) : Game :=
  if g.winner = none then
    { g with winner := some ((g.current_player_index + 1) % g.num_players) }
  else g

/-- The dictionaries returned by Hint.find_best_move: a worker selection
proposal, a move proposal or a build proposal. -/
inductive HintAction
  | hintSelect (wid : Nat) (position : Pos)
  | hintMove (position : Pos)
  | hintBuild (position : Pos)
deriving DecidableEq

/-- The level of the tile at a position, read through the grid.  Used
where the source calls get_block on a position known to be in bounds, so
that the returned tile is exactly the grid tile. -/
def Board.level_at (b : Board) (p : Pos) : Nat := (b.grid p).level

/-- Hint.find_best_move from the source: a linear scan keeping the first
candidate whose score strictly exceeds the best so far, starting from a
best score of minus one.
- select phase: each placed worker of the current player is scored by its
  number of valid moves, counted only when nonzero;
- move phase: each valid destination of the selected worker is scored
  5 per level climbed plus a flat 100 for reaching level 3;
- build phase: each valid build target is scored 3 minus its level.
Any other phase, or a missing selected worker, proposes nothing. -/
def Hint.find_best_move (g : Game) : Option HintAction :=
  match g.phase with
  | Phase.select =>
    ((playerWorkerIds g.current_player_index).foldl
      (fun (acc : Int × Option HintAction) wid =>
        match (g.workers wid).position with
        | none => acc
        | some p =>
          let vm := g.board.get_valid_moves p g.athena_activated
          if !vm.isEmpty && decide ((vm.length : Int) > acc.1) then
            ((vm.length : Int), some (HintAction.hintSelect wid p))
          else acc)
      (-1, none)).2
  | Phase.move =>
    match g.selected_worker with
    | none => none
    | some wid =>
      match (g.workers wid).position with
      | none => none
      | some wp =>
        ((g.board.get_valid_moves wp g.athena_activated).foldl
          (fun (acc : Int × Option HintAction) move_pos =>
            let current_level := g.board.level_at wp
            let target_level := g.board.level_at move_pos
            let score : Int :=
              (if current_level < target_level then
                5 * ((target_level : Int) - (current_level : Int)) else 0) +
              (if target_level = 3 then 100 else 0)
            if score > acc.1 then (score, some (HintAction.hintMove move_pos))
            else acc)
          (-1, none)).2
  | Phase.build =>
    match g.selected_worker with
    | none => none
    | some wid =>
      match (g.workers wid).position with
      | none => none
      | some wp =>
        ((g.board.get_valid_builds wp).foldl
          (fun (acc : Int × Option HintAction) build_pos =>
            let score : Int := 3 - (g.board.level_at build_pos : Int)
            if score > acc.1 then (score, some (HintAction.hintBuild build_pos))
            else acc)
          (-1, none)).2
  | _ => none

/-- Adjust the hint pool of one player by d, as the two assignments to
hint_counts entries in Game.provide_hint do. -/
def Game.add_hint (g : Game) (pi : Nat) (d : Int) : Game :=
  { g with hint_counts := fun j => if j = pi then g.hint_counts pi + d else g.hint_counts j }

/-- Game.provide_hint from the source: refused with no state change once
a winner is set or when the pool of the current player is exhausted;
otherwise the pool is decremented, the heuristic is consulted, and on an
empty proposal the decrement is refunded. -/
def Game.provide_hint (g : Game) : Option HintAction × Game :=
  match g.winner with
  | some _ => (none, g)
  | none =>
    if g.hint_counts g.current_player_index ≤ 0 then (none, g)
    else
      match Hint.find_best_move (g.add_hint g.current_player_index (-1)) with
      | none =>
        (none, (g.add_hint g.current_player_index (-1)).add_hint g.current_player_index 1)
      | some h => (some h, g.add_hint g.current_player_index (-1))

/-- The placement loop of Game.randomly_place_workers: one worker id per
iteration, taking the next position from the front of the list when one
remains (the result of place_worker is ignored by the source). -/
def Game.place_workers_loop : List Nat → List Pos → Game → Game
  | [], _, g => g
  | _ :: rest, [], g => Game.place_workers_loop rest [] g
  | wid :: rest, pos :: avail, g =>
      Game.place_workers_loop rest avail (g.move_to wid pos).2

/-- The worker ids of all players in placement order: for each player in
order, both of that player workers. -/
def Game.all_worker_ids (g : Game) : List Nat :=
  (List.range g.num_players).flatMap playerWorkerIds

/-- Game.randomly_place_workers from the source, with the shuffled list
of the 25 board positions passed in as a parameter standing for the
result of random.shuffle.  The source pops positions from the end of the
shuffled list; popping from the end is reading the reversed list from the
front. -/
def Game.randomly_place_workers (g : Game) (shuffled : List Pos) : Game :=
  Game.place_workers_loop g.all_worker_ids shuffled.reverse g

/-- Game.start_game from the source, up to timers and GUI calls: place
the workers randomly, then enter the select phase. -/
def Game.start_game (g : Game) (shuffled : List Pos) : Game :=
  { g.randomly_place_workers shuffled with phase := Phase.select }

/-- A fresh two-player game: Game.__init__ followed by two add_player
calls.  The cards parameter stands for the god cards the GUI hands to the
two players; worker i belongs to player i / 2 and starts unplaced. -/
def Game.new (cards : Nat → Option GodKind) : Game where
  board := { size := 5, grid := fun _ => { level := 0, worker := none } }
  god_cards := cards
  workers := fun i => { player := i / 2, position := none, prev_position := none }
  num_players := 2
  current_player_index := 0
  winner := none
  turn_count := 0
  athena_activated := false
  selected_worker := none
  phase := Phase.setup
  second_action := none
  god_power_active := false
  hint_counts := fun _ => 3

/-- The card assignment of SantoriniGUI.new_game in gui.py: the deck of
Artemis and Demeter is shuffled (firstIsArtemis tells which card ends up
first), one fixed Zeus card is prepared, and a coin flip decides whether
player 1 receives Zeus and player 2 the first card of the deck, or the
other way around. -/
def new_game_cards (firstIsArtemis : Bool) (coin : Bool) : GodKind × GodKind :=
  let first := if firstIsArtemis then GodKind.artemis else GodKind.demeter
  if coin then (GodKind.zeus, first) else (first, GodKind.zeus)

/-- One externally triggered engine operation: a tile click, a god power
activation, a skip of the second action, a hint request, the random
placement at session start, the start of the session, the end-of-turn
transition or a clock timeout. -/
inductive Step : Game → Game → Prop
  | tile_click (g : Game) (row col : Int) : Step g (g.handle_tile_click row col)
  | activate (g : Game) : Step g (g.activate_god_power).2
  | skip (g : Game) : Step g g.skip_second_action
  | hint (g : Game) : Step g (g.provide_hint).2
  | place_randomly (g : Game) (shuffled : List Pos) : Step g (g.randomly_place_workers shuffled)
  | start (g : Game) (shuffled : List Pos) : Step g (g.start_game shuffled)
  | turn (g : Game) : Step g g.next_turn
  | timeout (g : Game) : Step g g.handle_timeout

/-- A game state reachable from some fresh two-player session by engine
operations. -/
def Reachable (g : Game) : Prop :=
  ∃ cards, Relation.ReflTransGen Step (Game.new cards) g

/-! Helper lemmas about the primitive operations. -/

/-- Relation between a tile level before and after one engine operation:
either unchanged or raised by exactly one step, and bounded by the DOME
level whenever the starting level was. -/
def LevelStep (a b : Nat) : Prop :=
  (b = a ∨ b = a + 1) ∧ (a ≤ domeLevel → b ≤ domeLevel)

lemma LevelStep.refl (a : Nat) : LevelStep a a := ⟨Or.inl rfl, fun h => h⟩

lemma LevelStep.mono {a b : Nat} (h : LevelStep a b) : a ≤ b := by
  rcases h.1 with h1 | h1 <;> omega

lemma Tile.build_spec (t : Tile) :
    t.build = if t.worker = none ∧ t.level ≠ domeLevel
              then (true, { t with level := if t.level = 3 then domeLevel else t.level + 1 })
              else (false, t) := by
  unfold Tile.build Tile.isDome
  by_cases hw : t.worker = none <;> by_cases hd : t.level = domeLevel <;>
    by_cases h3 : t.level = 3 <;> simp_all [domeLevel]

lemma Tile.build_step (t : Tile) : LevelStep t.level (t.build).2.level := by
  rw [Tile.build_spec]
  by_cases hc : t.worker = none ∧ t.level ≠ domeLevel
  · simp only [if_pos hc]
    by_cases h3 : t.level = 3
    · exact ⟨Or.inr (by simp [h3, domeLevel]), fun _ => by simp [h3, domeLevel]⟩
    · refine ⟨Or.inr (by simp [h3]), fun hb => ?_⟩
      simp only [h3, if_false]
      rcases hc with ⟨-, hd⟩
      simp only [domeLevel] at *
      omega
  · simp only [if_neg hc]
    exact LevelStep.refl _

lemma Tile.build_succ_level (t : Tile) (h : (t.build).1 = true) :
    (t.build).2.level = t.level + 1 := by
  rw [Tile.build_spec] at h ⊢
  by_cases hc : t.worker = none ∧ t.level ≠ domeLevel
  · simp only [if_pos hc]
    by_cases h3 : t.level = 3 <;> simp [h3, domeLevel]
  · simp [if_neg hc] at h

lemma Tile.build_succ_iff (t : Tile) :
    (t.build).1 = true ↔ t.worker = none ∧ t.level ≠ domeLevel := by
  rw [Tile.build_spec]
  by_cases hc : t.worker = none ∧ t.level ≠ domeLevel <;> simp [hc]

lemma Tile.build_fail (t : Tile) (h : (t.build).1 = false) : (t.build).2 = t := by
  rw [Tile.build_spec] at h ⊢
  by_cases hc : t.worker = none ∧ t.level ≠ domeLevel
  · simp [if_pos hc] at h
  · simp [if_neg hc]

lemma Board.set_worker_level (b : Board) (p : Pos) (w : Option Nat) (q : Pos) :
    ((b.set_worker p w).grid q).level = (b.grid q).level := by
  unfold Board.set_worker
  by_cases h : q = p <;> simp [h]

lemma Board.set_tile_grid (b : Board) (p : Pos) (t : Tile) (q : Pos) :
    (b.set_tile p t).grid q = if q = p then t else b.grid q := rfl

lemma Game.move_to_grid_level (g : Game) (wid : Nat) (p q : Pos) :
    (((g.move_to wid p).2.board.grid q)).level = (g.board.grid q).level := by
  unfold Game.move_to
  split
  · rfl
  · split
    · rfl
    · split
      · rfl
      · simp only [Board.set_worker_level]
        split <;> simp [Board.set_worker_level]

lemma Game.move_to_athena (g : Game) (wid : Nat) (p : Pos) :
    ((g.move_to wid p).2).athena_activated = g.athena_activated := by
  unfold Game.move_to
  split
  · rfl
  · split
    · rfl
    · split
      · rfl
      · rfl

lemma Game.move_execute_grid_level (g : Game) (wid : Nat) (a b : Pos) (q : Pos) :
    (((g.move_execute wid a b).2.2.board.grid q)).level = (g.board.grid q).level := by
  unfold Game.move_execute
  split
  · rfl
  · split
    · split <;> simp [Game.move_to_grid_level]
    · rfl

lemma Game.move_execute_athena (g : Game) (wid : Nat) (a b : Pos) :
    ((g.move_execute wid a b).2.2).athena_activated = g.athena_activated := by
  unfold Game.move_execute
  split
  · rfl
  · split
    · split <;> simp [Game.move_to_athena]
    · rfl

lemma Game.build_execute_grid_level (g : Game) (a b : Pos) (q : Pos) :
    LevelStep ((g.board.grid q)).level (((g.build_execute a b).2.board.grid q)).level := by
  unfold Game.build_execute
  split
  · exact LevelStep.refl _
  · split
    · split
      · next t ht =>
        simp only [Board.set_tile_grid]
        by_cases hq : q = a
        · subst hq
          unfold Board.get_block at ht
          split at ht
          · simp only [Option.some.injEq] at ht
            subst ht
            simp only [if_pos rfl]
            exact Tile.build_step _
          · cases ht
        · simp [hq, LevelStep.refl]
      · exact LevelStep.refl _
    · exact LevelStep.refl _

lemma Game.build_execute_athena (g : Game) (a b : Pos) :
    ((g.build_execute a b).2).athena_activated = g.athena_activated := by
  unfold Game.build_execute
  split
  · rfl
  · split
    · split <;> rfl
    · rfl

lemma zeusSelfBuild_step (t : Tile) : LevelStep t.level (zeusSelfBuild t).level := by
  have h := Tile.build_step (Tile.mk t.level none)
  simpa [zeusSelfBuild] using h

lemma Game.check_game_over_board (g : Game) : (g.check_game_over).board = g.board := by
  unfold Game.check_game_over
  split
  · rfl
  · split <;> rfl

lemma Game.check_game_over_athena (g : Game) :
    (g.check_game_over).athena_activated = g.athena_activated := by
  unfold Game.check_game_over
  split
  · rfl
  · split <;> rfl

lemma Game.next_turn_board (g : Game) : (g.next_turn).board = g.board := by
  unfold Game.next_turn
  rw [Game.check_game_over_board]

lemma Game.next_turn_athena (g : Game) :
    (g.next_turn).athena_activated = g.athena_activated := by
  unfold Game.next_turn
  rw [Game.check_game_over_athena]

lemma moveOutcome_board (g2 : Game) (wid : Nat) (wp position : Pos) (win : Bool) :
    (moveOutcome g2 wid wp position win).board = g2.board := by
  unfold moveOutcome
  split
  · rfl
  · split
    · split <;> rfl
    · rfl

lemma moveOutcome_athena (g2 : Game) (wid : Nat) (wp position : Pos) (win : Bool) :
    (moveOutcome g2 wid wp position win).athena_activated = g2.athena_activated := by
  unfold moveOutcome
  split
  · rfl
  · split
    · split <;> rfl
    · rfl

lemma buildOutcome_board (g2 : Game) (wid : Nat) (vb : List Pos) (position : Pos) :
    (buildOutcome g2 wid vb position).board = g2.board := by
  unfold buildOutcome
  split
  · split
    · rfl
    · exact Game.next_turn_board g2
  · exact Game.next_turn_board g2

lemma buildOutcome_athena (g2 : Game) (wid : Nat) (vb : List Pos) (position : Pos) :
    (buildOutcome g2 wid vb position).athena_activated = g2.athena_activated := by
  unfold buildOutcome
  split
  · split
    · rfl
    · exact Game.next_turn_athena g2
  · exact Game.next_turn_athena g2

lemma placeAdvance_board (g2 : Game) (cur : Nat) : (placeAdvance g2 cur).board = g2.board := by
  unfold placeAdvance
  split
  · split <;> rfl
  · rfl

lemma placeAdvance_athena (g2 : Game) (cur : Nat) :
    (placeAdvance g2 cur).athena_activated = g2.athena_activated := by
  unfold placeAdvance
  split
  · split <;> rfl
  · rfl

lemma Game.handle_select_phase_board (g : Game) (p : Pos) :
    (g.handle_select_phase p).board = g.board := by
  unfold Game.handle_select_phase
  split
  · split
    · split
      · rfl
      · split <;> rfl
    · rfl
  · rfl

lemma Game.handle_select_phase_athena (g : Game) (p : Pos) :
    (g.handle_select_phase p).athena_activated = g.athena_activated := by
  unfold Game.handle_select_phase
  split
  · split
    · split
      · rfl
      · split <;> rfl
    · rfl
  · rfl

lemma Game.handle_move_phase_grid_level (g : Game) (p q : Pos) :
    ((g.handle_move_phase p).board.grid q).level = (g.board.grid q).level := by
  unfold Game.handle_move_phase
  split
  · rfl
  · split
    · rfl
    · split
      · split
        · rw [moveOutcome_board]
          exact Game.move_execute_grid_level ..
        · exact Game.move_execute_grid_level ..
      · rfl

lemma Game.handle_move_phase_athena (g : Game) (p : Pos) :
    (g.handle_move_phase p).athena_activated = g.athena_activated := by
  unfold Game.handle_move_phase
  split
  · rfl
  · split
    · rfl
    · split
      · split
        · rw [moveOutcome_athena]
          exact Game.move_execute_athena ..
        · exact Game.move_execute_athena ..
      · rfl

lemma Game.handle_second_move_phase_grid_level (g : Game) (p q : Pos) :
    ((g.handle_second_move_phase p).board.grid q).level = (g.board.grid q).level := by
  unfold Game.handle_second_move_phase
  split
  · split
    · rfl
    · split
      · rfl
      · split
        · split
          · split
            · exact Game.move_execute_grid_level ..
            · exact Game.move_execute_grid_level ..
          · exact Game.move_execute_grid_level ..
        · rfl
  · rfl

lemma Game.handle_second_move_phase_athena (g : Game) (p : Pos) :
    (g.handle_second_move_phase p).athena_activated = g.athena_activated := by
  unfold Game.handle_second_move_phase
  split
  · split
    · rfl
    · split
      · rfl
      · split
        · split
          · split
            · exact Game.move_execute_athena ..
            · exact Game.move_execute_athena ..
          · exact Game.move_execute_athena ..
        · rfl
  · rfl

lemma Game.handle_build_phase_grid_level (g : Game) (p q : Pos) :
    LevelStep ((g.board.grid q)).level ((g.handle_build_phase p).board.grid q).level := by
  unfold Game.handle_build_phase
  split
  · exact LevelStep.refl _
  · split
    · exact LevelStep.refl _
    · split
      · split
        · split
          · next t ht =>
            split
            · rw [Game.next_turn_board]
              simp only [Board.set_tile_grid]
              by_cases hq : q = p
              · subst hq
                unfold Board.get_block at ht
                split at ht
                · simp only [Option.some.injEq] at ht
                  subst ht
                  simp only [if_pos rfl]
                  exact zeusSelfBuild_step _
                · cases ht
              · simp [hq, LevelStep.refl]
            · exact LevelStep.refl _
          · exact LevelStep.refl _
        · split
          · rw [buildOutcome_board]
            exact Game.build_execute_grid_level ..
          · exact Game.build_execute_grid_level ..
      · exact LevelStep.refl _

lemma Game.handle_build_phase_athena (g : Game) (p : Pos) :
    (g.handle_build_phase p).athena_activated = g.athena_activated := by
  unfold Game.handle_build_phase
  split
  · rfl
  · split
    · rfl
    · split
      · split
        · split
          · split
            · rw [Game.next_turn_athena]
            · rfl
          · rfl
        · split
          · rw [buildOutcome_athena]
            exact Game.build_execute_athena ..
          · exact Game.build_execute_athena ..
      · rfl

lemma Game.handle_second_build_phase_grid_level (g : Game) (p q : Pos) :
    LevelStep ((g.board.grid q)).level ((g.handle_second_build_phase p).board.grid q).level := by
  unfold Game.handle_second_build_phase
  split
  · split
    · exact LevelStep.refl _
    · split
      · exact LevelStep.refl _
      · split
        · split
          · rw [Game.next_turn_board]
            exact Game.build_execute_grid_level ..
          · exact Game.build_execute_grid_level ..
        · exact LevelStep.refl _
  · exact LevelStep.refl _

lemma Game.handle_second_build_phase_athena (g : Game) (p : Pos) :
    (g.handle_second_build_phase p).athena_activated = g.athena_activated := by
  unfold Game.handle_second_build_phase
  split
  · split
    · rfl
    · split
      · rfl
      · split
        · split
          · rw [Game.next_turn_athena]
            exact Game.build_execute_athena ..
          · exact Game.build_execute_athena ..
        · rfl
  · rfl

lemma Game.handle_place_phase_grid_level (g : Game) (p q : Pos) :
    ((g.handle_place_phase p).board.grid q).level = (g.board.grid q).level := by
  unfold Game.handle_place_phase
  split
  · split
    · rw [placeAdvance_board]
      exact Game.move_to_grid_level ..
    · exact Game.move_to_grid_level ..
  · rw [Game.next_turn_board]

lemma Game.handle_place_phase_athena (g : Game) (p : Pos) :
    (g.handle_place_phase p).athena_activated = g.athena_activated := by
  unfold Game.handle_place_phase
  split
  · split
    · rw [placeAdvance_athena]
      exact Game.move_to_athena ..
    · exact Game.move_to_athena ..
  · rw [Game.next_turn_athena]

lemma Game.handle_tile_click_grid_level (g : Game) (row col : Int) (q : Pos) :
    LevelStep ((g.board.grid q)).level ((g.handle_tile_click row col).board.grid q).level := by
  unfold Game.handle_tile_click
  split
  · exact LevelStep.refl _
  · split
    · rw [Game.handle_place_phase_grid_level]
      exact LevelStep.refl _
    · rw [Game.handle_select_phase_board]
      exact LevelStep.refl _
    · rw [Game.handle_move_phase_grid_level]
      exact LevelStep.refl _
    · exact Game.handle_build_phase_grid_level ..
    · rw [Game.handle_second_move_phase_grid_level]
      exact LevelStep.refl _
    · exact Game.handle_second_build_phase_grid_level ..
    · exact LevelStep.refl _

lemma Game.handle_tile_click_athena (g : Game) (row col : Int) :
    (g.handle_tile_click row col).athena_activated = g.athena_activated := by
  unfold Game.handle_tile_click
  split
  · rfl
  · split
    · exact Game.handle_place_phase_athena ..
    · exact Game.handle_select_phase_athena ..
    · exact Game.handle_move_phase_athena ..
    · exact Game.handle_build_phase_athena ..
    · exact Game.handle_second_move_phase_athena ..
    · exact Game.handle_second_build_phase_athena ..
    · rfl

lemma Game.activate_god_power_board (g : Game) :
    ((g.activate_god_power).2).board = g.board := by
  unfold Game.activate_god_power
  split
  · rfl
  · split
    · rfl
    · split <;> rfl

lemma Game.activate_god_power_athena (g : Game) :
    ((g.activate_god_power).2).athena_activated = g.athena_activated := by
  unfold Game.activate_god_power
  split
  · rfl
  · split
    · rfl
    · split <;> rfl

lemma Game.skip_second_action_board (g : Game) :
    (g.skip_second_action).board = g.board := by
  unfold Game.skip_second_action
  split
  · rfl
  · split
    · exact Game.next_turn_board g
    · rfl

lemma Game.skip_second_action_athena (g : Game) :
    (g.skip_second_action).athena_activated = g.athena_activated := by
  unfold Game.skip_second_action
  split
  · rfl
  · split
    · exact Game.next_turn_athena g
    · rfl

lemma Game.provide_hint_board (g : Game) : ((g.provide_hint).2).board = g.board := by
  unfold Game.provide_hint
  split
  · rfl
  · split
    · rfl
    · split <;> rfl

lemma Game.provide_hint_athena (g : Game) :
    ((g.provide_hint).2).athena_activated = g.athena_activated := by
  unfold Game.provide_hint
  split
  · rfl
  · split
    · rfl
    · split <;> rfl

lemma Game.handle_timeout_board (g : Game) : (g.handle_timeout).board = g.board := by
  unfold Game.handle_timeout
  split <;> rfl

lemma Game.handle_timeout_athena (g : Game) :
    (g.handle_timeout).athena_activated = g.athena_activated := by
  unfold Game.handle_timeout
  split <;> rfl

lemma Game.place_workers_loop_grid_level (wids : List Nat) (avail : List Pos)
    (g : Game) (q : Pos) :
    ((Game.place_workers_loop wids avail g).board.grid q).level = (g.board.grid q).level := by
  induction wids generalizing avail g with
  | nil => rfl
  | cons w ws ih =>
    cases avail with
    | nil => exact ih [] g
    | cons a as =>
      rw [Game.place_workers_loop, ih]
      exact Game.move_to_grid_level ..

lemma Game.place_workers_loop_athena (wids : List Nat) (avail : List Pos) (g : Game) :
    (Game.place_workers_loop wids avail g).athena_activated = g.athena_activated := by
  induction wids generalizing avail g with
  | nil => rfl
  | cons w ws ih =>
    cases avail with
    | nil => exact ih [] g
    | cons a as =>
      rw [Game.place_workers_loop, ih]
      exact Game.move_to_athena ..

lemma Game.randomly_place_workers_grid_level (g : Game) (l : List Pos) (q : Pos) :
    ((g.randomly_place_workers l).board.grid q).level = (g.board.grid q).level :=
  Game.place_workers_loop_grid_level ..

lemma Game.randomly_place_workers_athena (g : Game) (l : List Pos) :
    (g.randomly_place_workers l).athena_activated = g.athena_activated :=
  Game.place_workers_loop_athena ..

lemma Game.start_game_grid_level (g : Game) (l : List Pos) (q : Pos) :
    ((g.start_game l).board.grid q).level = (g.board.grid q).level :=
  Game.randomly_place_workers_grid_level ..

lemma Game.start_game_athena (g : Game) (l : List Pos) :
    (g.start_game l).athena_activated = g.athena_activated :=
  Game.randomly_place_workers_athena ..

/-- Every engine operation moves every tile level by a LevelStep: it
stays put or climbs exactly one step, and stays at most DOME when it was
at most DOME. -/
lemma Step.grid_level {g g' : Game} (h : Step g g') (q : Pos) :
    LevelStep ((g.board.grid q)).level ((g'.board.grid q)).level := by
  cases h with
  | tile_click row col => exact Game.handle_tile_click_grid_level ..
  | activate => rw [Game.activate_god_power_board]; exact LevelStep.refl _
  | skip => rw [Game.skip_second_action_board]; exact LevelStep.refl _
  | hint => rw [Game.provide_hint_board]; exact LevelStep.refl _
  | place_randomly l => rw [Game.randomly_place_workers_grid_level]; exact LevelStep.refl _
  | start l => rw [Game.start_game_grid_level]; exact LevelStep.refl _
  | turn => rw [Game.next_turn_board]; exact LevelStep.refl _
  | timeout => rw [Game.handle_timeout_board]; exact LevelStep.refl _

lemma adjacent_mem_valid {b : Board} {p a : Pos} (h : a ∈ b.get_adjacent_positions p) :
    b.is_valid_position a = true := by
  unfold Board.get_adjacent_positions at h
  rw [List.mem_filter] at h
  have h2 := h.2
  simp only [Bool.and_eq_true] at h2
  exact h2.2

lemma get_block_of_valid {b : Board} {a : Pos} (h : b.is_valid_position a = true) :
    b.get_block a = some (b.grid a) := by
  unfold Board.get_block
  rw [if_pos h]

/-- Membership in get_valid_moves, characterised: an adjacent tile is a
valid destination iff it is unoccupied, not a dome, at most one level
above the source, and, when the restriction flag is set, not exactly one
level above the source. -/
lemma mem_get_valid_moves_iff (b : Board) (p a : Pos) (r : Bool)
    (hp : b.is_valid_position p = true) :
    a ∈ b.get_valid_moves p r ↔
      a ∈ b.get_adjacent_positions p ∧ (b.grid a).worker = none ∧
      (b.grid a).level ≠ domeLevel ∧
      ((b.grid a).level : Int) - ((b.grid p).level : Int) ≤ 1 ∧
      ¬(((b.grid a).level : Int) - ((b.grid p).level : Int) = 1 ∧ r = true) := by
  unfold Board.get_valid_moves
  rw [hp]
  simp only [Bool.not_true, Bool.false_eq_true, if_false, List.mem_filter]
  constructor
  · rintro ⟨hadj, hmv⟩
    have hv := adjacent_mem_valid hadj
    simp only [moveAllowed, get_block_of_valid hv, Bool.and_eq_true, beq_iff_eq,
      Bool.not_eq_true', decide_eq_true_eq, Tile.isDome] at hmv
    obtain ⟨⟨⟨hw, hd⟩, hle⟩, hx⟩ := hmv
    refine ⟨hadj, hw, by simpa using hd, hle, ?_⟩
    rintro ⟨h1, hr⟩
    rw [hr] at hx
    simp only [Bool.and_true] at hx
    rw [h1] at hx
    simp at hx
  · rintro ⟨hadj, hw, hd, hle, hx⟩
    have hv := adjacent_mem_valid hadj
    refine ⟨hadj, ?_⟩
    simp only [moveAllowed, get_block_of_valid hv, Bool.and_eq_true, beq_iff_eq,
      Bool.not_eq_true', decide_eq_true_eq, Tile.isDome]
    refine ⟨⟨⟨hw, by simpa using hd⟩, hle⟩, ?_⟩
    cases r with
    | false => simp
    | true =>
      simp only [Bool.and_true]
      have h1 : ¬((b.grid a).level : Int) - ((b.grid p).level : Int) = 1 := by
        intro h1
        exact hx ⟨h1, rfl⟩
      simpa using h1

/-- Membership in get_valid_builds, characterised: an adjacent tile is a
valid build target iff it is unoccupied and not a dome. -/
lemma mem_get_valid_builds_iff (b : Board) (p a : Pos)
    (hp : b.is_valid_position p = true) :
    a ∈ b.get_valid_builds p ↔
      a ∈ b.get_adjacent_positions p ∧ (b.grid a).worker = none ∧
      (b.grid a).level ≠ domeLevel := by
  unfold Board.get_valid_builds
  rw [hp]
  simp only [Bool.not_true, Bool.false_eq_true, if_false, List.mem_filter]
  constructor
  · rintro ⟨hadj, hbd⟩
    have hv := adjacent_mem_valid hadj
    simp only [buildAllowed, get_block_of_valid hv, Bool.and_eq_true, beq_iff_eq,
      Bool.not_eq_true', Tile.isDome] at hbd
    exact ⟨hadj, hbd.1, by simpa using hbd.2⟩
  · rintro ⟨hadj, hw, hd⟩
    have hv := adjacent_mem_valid hadj
    refine ⟨hadj, ?_⟩
    simp only [buildAllowed, get_block_of_valid hv, Bool.and_eq_true, beq_iff_eq,
      Bool.not_eq_true', Tile.isDome]
    exact ⟨hw, by simpa using hd⟩

lemma get_adjacent_positions_nodup (b : Board) (p : Pos) :
    (b.get_adjacent_positions p).Nodup := by
  apply List.Nodup.filter
  simp only [List.nodup_cons, List.mem_cons, List.not_mem_nil, or_false,
    List.mem_singleton, List.nodup_nil, and_true, Prod.mk.injEq, not_or,
    true_and, not_false_eq_true]
  omega

lemma get_valid_moves_nodup (b : Board) (p : Pos) (r : Bool) :
    (b.get_valid_moves p r).Nodup := by
  unfold Board.get_valid_moves
  split
  · exact List.nodup_nil
  · exact (get_adjacent_positions_nodup b p).filter _

lemma get_valid_builds_nodup (b : Board) (p : Pos) :
    (b.get_valid_builds p).Nodup := by
  unfold Board.get_valid_builds
  split
  · exact List.nodup_nil
  · exact (get_adjacent_positions_nodup b p).filter _

/-- No engine operation writes the athena_activated flag. -/
lemma Step.athena_eq {g g' : Game} (h : Step g g') :
    g'.athena_activated = g.athena_activated := by
  cases h with
  | tile_click row col => exact Game.handle_tile_click_athena ..
  | activate => exact Game.activate_god_power_athena ..
  | skip => exact Game.skip_second_action_athena ..
  | hint => exact Game.provide_hint_athena ..
  | place_randomly l => exact Game.randomly_place_workers_athena ..
  | start l => exact Game.start_game_athena ..
  | turn => exact Game.next_turn_athena ..
  | timeout => exact Game.handle_timeout_athena ..

lemma Game.move_to_succ_iff (g : Game) (wid : Nat) (p : Pos) :
    (g.move_to wid p).1 = true ↔
      g.board.is_valid_position p = true ∧ (g.board.grid p).worker = none ∧
      (g.board.grid p).level ≠ domeLevel := by
  unfold Game.move_to
  by_cases hv : g.board.is_valid_position p = true
  · simp only [hv, Bool.not_true, Bool.false_eq_true, if_false, Board.get_block, if_true]
    by_cases hw : (g.board.grid p).worker = none
    · by_cases hd : (g.board.grid p).level = domeLevel
      · simp [hw, Tile.isDome, hd]
      · simp [hw, Tile.isDome, hd]
    · simp [hw, Tile.isDome]
  · simp only [Bool.not_eq_true] at hv
    simp [hv]

lemma Game.move_to_workers (g : Game) (wid : Nat) (p : Pos)
    (hv : g.board.is_valid_position p = true)
    (hw : (g.board.grid p).worker = none)
    (hd : (g.board.grid p).level ≠ domeLevel) :
    (g.move_to wid p).2.workers = fun i =>
      if i = wid then
        Worker.mk (g.workers wid).player (some p) ((g.workers wid).position)
      else g.workers i := by
  unfold Game.move_to
  simp [hv, Board.get_block, hw, Tile.isDome, hd]

lemma Game.move_to_board_eq (g : Game) (wid : Nat) (p : Pos)
    (hv : g.board.is_valid_position p = true)
    (hw : (g.board.grid p).worker = none)
    (hd : (g.board.grid p).level ≠ domeLevel) :
    (g.move_to wid p).2.board =
      (match (g.workers wid).position with
        | some op => g.board.set_worker op none
        | none => g.board).set_worker p (some wid) := by
  unfold Game.move_to
  simp [hv, Board.get_block, hw, Tile.isDome, hd]

/-! Claim theorems. -/

/-- Scenario board for claim C5: a 5 by 5 board, empty except a worker at
(2,2), everything at level 0. -/
def scenarioBoard : Board :=
  { size := 5,
    grid := fun q => if q = ((2 : Int), (2 : Int)) then Tile.mk 0 (some 0) else Tile.mk 0 none }

/-- Scenario board for claim C5 with the neighbor (1,2) of the worker at
(2,2) raised to level 1. -/
def scenarioRaisedBoard : Board :=
  { size := 5,
    grid := fun q =>
      if q = ((2 : Int), (2 : Int)) then Tile.mk 0 (some 0)
      else if q = ((1 : Int), (2 : Int)) then Tile.mk 1 none
      else Tile.mk 0 none }

/-- C5: for every in-bounds position and every restriction flag, an
adjacent tile is a valid move destination iff it is unoccupied, not a
dome, and at most one level above the source, with climbs of exactly one
level additionally excluded when the restriction flag is set; on a board
empty apart from a worker at (2,2) all 8 neighbors are returned, and with
the flag set a neighbor raised to level 1 is excluded while without the
flag it is included. -/
theorem C5_valid_moves_spec :
    (∀ (b : Board) (p a : Pos) (r : Bool), b.is_valid_position p = true →
      (a ∈ b.get_valid_moves p r ↔
        a ∈ b.get_adjacent_positions p ∧ (b.grid a).worker = none ∧
        (b.grid a).level ≠ domeLevel ∧
        ((b.grid a).level : Int) - ((b.grid p).level : Int) ≤ 1 ∧
        ¬(((b.grid a).level : Int) - ((b.grid p).level : Int) = 1 ∧ r = true))) ∧
    scenarioBoard.get_valid_moves (2, 2) false =
      [(1, 1), (1, 2), (1, 3), (2, 1), (2, 3), (3, 1), (3, 2), (3, 3)] ∧
    (1, 2) ∉ scenarioRaisedBoard.get_valid_moves (2, 2) true ∧
    (1, 2) ∈ scenarioRaisedBoard.get_valid_moves (2, 2) false := by
  refine ⟨mem_get_valid_moves_iff, ?_, ?_, ?_⟩ <;> decide

/-- Witness for C5 at a concrete input: the neighbor (1,1) of (2,2) is a
valid destination on the scenario board, through the characterisation. -/
theorem C5_witness :
    (1, 1) ∈ scenarioBoard.get_valid_moves (2, 2) false :=
  (C5_valid_moves_spec.1 scenarioBoard (2, 2) (1, 1) false (by decide)).mpr (by decide)

/-- C6: a successful move records the vacated position as the previous
position of the worker; the previous position of the worker is never
among the legal second-move destinations; and clicking it in the
second_move phase leaves the state unchanged.  Hence no pair of moves in
one turn returns the worker to the tile it started the turn on. -/
theorem C6_no_round_trip :
    (∀ (g : Game) (wid : Nat) (q p : Pos),
      (g.workers wid).position = some p → (g.move_to wid q).1 = true →
      ((g.move_to wid q).2.workers wid).prev_position = some p) ∧
    (∀ (g : Game) (wid : Nat) (wp pp : Pos),
      (g.workers wid).prev_position = some pp →
      pp ∉ secondMoveTargets g wid wp) ∧
    (∀ (g : Game) (wid : Nat) (pp : Pos),
      g.selected_worker = some wid → (g.workers wid).prev_position = some pp →
      g.handle_second_move_phase pp = g) := by
  have hexcl : ∀ (g : Game) (wid : Nat) (wp pp : Pos),
      (g.workers wid).prev_position = some pp → pp ∉ secondMoveTargets g wid wp := by
    intro g wid wp pp hprev
    unfold secondMoveTargets
    rw [hprev]
    exact (get_valid_moves_nodup g.board wp g.athena_activated).not_mem_erase
  refine ⟨?_, hexcl, ?_⟩
  · intro g wid q p hpos hsucc
    obtain ⟨hv, hw, hd⟩ := (Game.move_to_succ_iff g wid q).mp hsucc
    rw [Game.move_to_workers g wid q hv hw hd]
    simp [hpos]
  · intro g wid pp hsel hprev
    unfold Game.handle_second_move_phase
    rw [hsel]
    cases hsa : g.second_action with
    | none => rfl
    | some sa =>
      by_cases hty : sa.type ≠ ActionType.move
      · simp [hty]
      · simp only [hty, if_false, ite_not, if_true]
        cases hwp : (g.workers wid).position with
        | none => rfl
        | some wp =>
          have hnm := hexcl g wid wp pp hprev
          simp [hnm]

/-- Witness for C6 at a concrete input: after the fresh game moves worker
0 to (0,0) and then to (0,1), the previous position (0,0) is recorded and
excluded from the second-move targets. -/
theorem C6_witness :
    (((Game.new fun _ => none).move_to 0 (0, 0)).2.move_to 0 (0, 1)).1 = true ∧
    ((((Game.new fun _ => none).move_to 0 (0, 0)).2.move_to 0 (0, 1)).2.workers 0).prev_position
      = some (0, 0) ∧
    (0, 0) ∉ secondMoveTargets
      (((Game.new fun _ => none).move_to 0 (0, 0)).2.move_to 0 (0, 1)).2 0 (0, 1) := by
  refine ⟨by decide, ?_, ?_⟩
  · exact C6_no_round_trip.1 ((Game.new fun _ => none).move_to 0 (0, 0)).2 0 (0, 1) (0, 0)
      (by decide) (by decide)
  · exact C6_no_round_trip.2.1 _ 0 (0, 1) (0, 0)
      (C6_no_round_trip.1 ((Game.new fun _ => none).move_to 0 (0, 0)).2 0 (0, 1) (0, 0)
        (by decide) (by decide))

lemma Game.next_turn_god_power (g : Game) : g.next_turn.god_power_active = false := by
  unfold Game.next_turn Game.check_game_over
  split
  · rfl
  · split <;> rfl

/-- C2 amended: once a winner is set, tile clicks and hint requests are
refused as no-ops: the state is returned unchanged and no hint is
produced.  God-power activation and the second-action skip carry no
winner guard; the counterexample shows them mutating a finished game. -/
theorem C2_terminal_state_guards :
    ∀ (g : Game) (w : Nat), g.winner = some w →
      (∀ row col : Int, g.handle_tile_click row col = g) ∧
      g.provide_hint = (none, g) := by
  intro g w hw
  constructor
  · intro row col
    unfold Game.handle_tile_click
    simp [hw]
  · unfold Game.provide_hint
    rw [hw]

/-- Witness for C2 at a concrete input: a fresh game with the winner
forced refuses a tile click and a hint request. -/
theorem C2_witness :
    ({ Game.new (fun _ => none) with winner := some 0 } : Game).handle_tile_click 2 2 =
      { Game.new (fun _ => none) with winner := some 0 } ∧
    ({ Game.new (fun _ => none) with winner := some 0 } : Game).provide_hint =
      (none, { Game.new (fun _ => none) with winner := some 0 }) :=
  ⟨(C2_terminal_state_guards _ 0 rfl).1 2 2, (C2_terminal_state_guards _ 0 rfl).2⟩

/-- A finished game: the winner is set, the phase is still select (as the
stalemate check leaves it), the current player holds a card and the power
is not active. -/
def c2Game : Game :=
  { Game.new (fun _ => some GodKind.zeus) with winner := some 1, phase := Phase.select }

/-- Counterexample to C2 as stated: in a finished game, activating the
god power succeeds and mutates the god power flag, and in a finished game
stuck in the second_move phase the skip command mutates the phase; so not
every externally triggered mutating call is refused after the winner is
set. -/
theorem C2_counterexample :
    c2Game.winner = some 1 ∧
    c2Game.god_power_active = false ∧
    (c2Game.activate_god_power).1 = true ∧
    (c2Game.activate_god_power).2.god_power_active = true ∧
    ({ c2Game with phase := Phase.second_move } : Game).winner = some 1 ∧
    ({ c2Game with phase := Phase.second_move } : Game).skip_second_action.phase =
      Phase.build := by
  refine ⟨rfl, rfl, by decide, by decide, rfl, by decide⟩

/-- C3 amended: activating the god power succeeds iff the current player
holds a card, the phase is select, move or build, and the power is not
yet active this turn; the can_use_power predicate of the card is not
consulted (see the counterexample).  A successful activation sets the
flag, a second attempt in the same turn fails, and the flag is reset at
the start of every turn. -/
theorem C3_activation_protocol :
    ∀ g : Game,
      ((g.activate_god_power).1 = true ↔
        g.god_cards g.current_player_index ≠ none ∧
        g.phase ∈ [Phase.select, Phase.move, Phase.build] ∧
        g.god_power_active = false) ∧
      ((g.activate_god_power).1 = true →
        (g.activate_god_power).2 = { g with god_power_active := true }) ∧
      ((g.activate_god_power).1 = true →
        (((g.activate_god_power).2).activate_god_power).1 = false) ∧
      (g.next_turn.god_power_active = false) := by
  have hiff : ∀ g : Game, (g.activate_god_power).1 = true ↔
      g.god_cards g.current_player_index ≠ none ∧
      g.phase ∈ [Phase.select, Phase.move, Phase.build] ∧
      g.god_power_active = false := by
    intro g
    unfold Game.activate_god_power
    cases hc : g.god_cards g.current_player_index with
    | none => simp
    | some k =>
      by_cases hp : g.phase ∈ [Phase.select, Phase.move, Phase.build]
      · by_cases ha : g.god_power_active <;> simp [hp, ha]
      · simp [hp]
  have hres : ∀ g : Game, (g.activate_god_power).1 = true →
      (g.activate_god_power).2 = { g with god_power_active := true } := by
    intro g h
    rw [hiff g] at h
    obtain ⟨hc, hp, ha⟩ := h
    unfold Game.activate_god_power
    cases hcc : g.god_cards g.current_player_index with
    | none => exact absurd hcc hc
    | some k => simp [hp, ha]
  intro g
  refine ⟨hiff g, hres g, ?_, Game.next_turn_god_power g⟩
  intro h
  rw [hres g h]
  rw [← Bool.not_eq_true]
  intro htrue
  have h4 := ((hiff _).mp htrue).2.2
  simp at h4

/-- A fresh game moved to the select phase with a Zeus card, used as the
C3 witness input. -/
def c3WitnessGame : Game :=
  { Game.new (fun _ => some GodKind.zeus) with phase := Phase.select }

/-- Witness for C3 at a concrete input: in a fresh game moved to the
select phase with a card, activation succeeds, a second attempt fails,
and next_turn clears the flag. -/
theorem C3_witness :
    (c3WitnessGame.activate_god_power).1 = true ∧
    ((c3WitnessGame.activate_god_power).2.activate_god_power).1 = false ∧
    c3WitnessGame.next_turn.god_power_active = false := by
  have h1 := (C3_activation_protocol c3WitnessGame).1.mpr ⟨by decide, by decide, by decide⟩
  exact ⟨h1, (C3_activation_protocol c3WitnessGame).2.2.1 h1,
    (C3_activation_protocol c3WitnessGame).2.2.2⟩

/-- The board of the C3 counterexample: player 0 workers at (0,0) and
(4,4), player 1 workers at (0,4) and (4,0); the neighborhood of (0,0) is
domed except (0,1) and the neighborhood of (4,4) is fully domed. -/
def c3Board : Board :=
  { size := 5,
    grid := fun q =>
      if q = ((0 : Int), (0 : Int)) then Tile.mk 0 (some 0)
      else if q = ((4 : Int), (4 : Int)) then Tile.mk 0 (some 1)
      else if q = ((0 : Int), (4 : Int)) then Tile.mk 0 (some 2)
      else if q = ((4 : Int), (0 : Int)) then Tile.mk 0 (some 3)
      else if q = ((1 : Int), (0 : Int)) then Tile.mk 4 none
      else if q = ((1 : Int), (1 : Int)) then Tile.mk 4 none
      else if q = ((3 : Int), (3 : Int)) then Tile.mk 4 none
      else if q = ((3 : Int), (4 : Int)) then Tile.mk 4 none
      else if q = ((4 : Int), (3 : Int)) then Tile.mk 4 none
      else Tile.mk 0 none }

/-- The C3 counterexample state: player 0 holds Demeter, is in the build
phase with worker 0 selected, the power is not active; worker 0 has
exactly one legal build, worker 1 has none, so can_use_power of Demeter
fails for both workers of the player. -/
def c3Game : Game :=
  { Game.new (fun i => if i = 0 then some GodKind.demeter else some GodKind.artemis) with
    board := c3Board,
    phase := Phase.build,
    selected_worker := some 0,
    workers := fun i =>
      if i = 0 then Worker.mk 0 (some (0, 0)) none
      else if i = 1 then Worker.mk 0 (some (4, 4)) none
      else if i = 2 then Worker.mk 1 (some (0, 4)) none
      else Worker.mk 1 (some (4, 0)) none }

/-- Counterexample to C3 as stated: activation succeeds in a state in
which the can_use_power predicate of the card of the current player holds
for no worker of that player, so success does not require the canActivate
condition of the claim. -/
theorem C3_counterexample :
    c3Game.god_cards c3Game.current_player_index = some GodKind.demeter ∧
    playerWorkerIds c3Game.current_player_index = [0, 1] ∧
    can_use_power GodKind.demeter c3Game.board (c3Game.workers 0) = false ∧
    can_use_power GodKind.demeter c3Game.board (c3Game.workers 1) = false ∧
    (c3Game.activate_god_power).1 = true := by
  refine ⟨by decide, by decide, by decide, by decide, by decide⟩

/-- C4: under every engine operation every tile level either stays or
climbs exactly one step (so it never decreases), and stays at most DOME
when it was at most DOME; Tile.build succeeds exactly on an unoccupied
non-dome tile, a successful build raises the level by exactly one, a
build on a level-3 unoccupied tile produces a DOME, and a build on a dome
fails and leaves the tile unchanged. -/
theorem C4_height_monotone :
    (∀ (g g' : Game), Step g g' → ∀ q : Pos,
      (g.board.grid q).level ≤ (g'.board.grid q).level ∧
      ((g'.board.grid q).level = (g.board.grid q).level ∨
       (g'.board.grid q).level = (g.board.grid q).level + 1) ∧
      ((g.board.grid q).level ≤ domeLevel → (g'.board.grid q).level ≤ domeLevel)) ∧
    (∀ t : Tile,
      ((t.build).1 = true ↔ t.worker = none ∧ t.level ≠ domeLevel) ∧
      ((t.build).1 = true → (t.build).2.level = t.level + 1) ∧
      (t.level = 3 → t.worker = none → (t.build).2.level = domeLevel) ∧
      (t.isDome = true → t.build = (false, t))) := by
  constructor
  · intro g g' h q
    have hs := h.grid_level q
    exact ⟨hs.mono, hs.1, hs.2⟩
  · intro t
    refine ⟨Tile.build_succ_iff t, Tile.build_succ_level t, ?_, ?_⟩
    · intro h3 hw
      have hsucc : (t.build).1 = true :=
        (Tile.build_succ_iff t).mpr ⟨hw, by simp [h3, domeLevel]⟩
      rw [Tile.build_succ_level t hsucc, h3]
      rfl
    · intro hd
      have hlev : t.level = domeLevel := by simpa [Tile.isDome] using hd
      rw [Tile.build_spec]
      simp [hlev]

/-- Witness for C4 at a concrete input: the next_turn operation on a
fresh game is a Step, so the level of tile (0,0) does not decrease, and a
dome tile refuses a build through the theorem. -/
theorem C4_witness :
    ((Game.new fun _ => none).board.grid (0, 0)).level ≤
      ((Game.new fun _ => none).next_turn.board.grid (0, 0)).level ∧
    (Tile.mk 4 none).build = (false, Tile.mk 4 none) :=
  ⟨(C4_height_monotone.1 _ _ (Step.turn _) (0, 0)).1,
   (C4_height_monotone.2 (Tile.mk 4 none)).2.2.2 (by decide)⟩

/-- C9: in every reachable engine state the athena_activated flag is
false (it starts false and no operation writes it), so every legality
query the engine issues runs with the upward-move restriction disabled:
with the flag off, membership in get_valid_moves never excludes a climb
of exactly one level. -/
theorem C9_athena_flag_dead :
    (∀ g : Game, Reachable g → g.athena_activated = false) ∧
    (∀ (b : Board) (p a : Pos), b.is_valid_position p = true →
      (a ∈ b.get_valid_moves p false ↔
        a ∈ b.get_adjacent_positions p ∧ (b.grid a).worker = none ∧
        (b.grid a).level ≠ domeLevel ∧
        ((b.grid a).level : Int) - ((b.grid p).level : Int) ≤ 1)) := by
  constructor
  · rintro g ⟨cards, hreach⟩
    induction hreach with
    | refl => rfl
    | tail hsteps hstep ih => rw [hstep.athena_eq]; exact ih
  · intro b p a hp
    rw [mem_get_valid_moves_iff b p a false hp]
    simp

/-- Witness for C9 at a concrete input: the fresh game itself is
reachable and its flag is false, and on the scenario board the climb from
level 0 to the raised neighbor at level 1 is allowed with the flag off. -/
theorem C9_witness :
    (Game.new fun _ => none).athena_activated = false ∧
    (1, 2) ∈ scenarioRaisedBoard.get_valid_moves (2, 2) false :=
  ⟨C9_athena_flag_dead.1 _ ⟨fun _ => none, Relation.ReflTransGen.refl⟩,
   (C9_athena_flag_dead.2 scenarioRaisedBoard (2, 2) (1, 2) (by decide)).mpr (by decide)⟩

/-- C7: a hint request with an exhausted pool is refused with no state
change; a produced proposal decrements exactly the pool of the requester
by one; a request that produces no proposal leaves every pool unchanged
(the decrement is refunded); and non-negative pools stay non-negative. -/
theorem C7_hint_credit_accounting :
    ∀ g : Game,
      (g.winner = none → g.hint_counts g.current_player_index ≤ 0 →
        g.provide_hint = (none, g)) ∧
      (∀ h, (g.provide_hint).1 = some h →
        (g.provide_hint).2.hint_counts g.current_player_index =
          g.hint_counts g.current_player_index - 1 ∧
        ∀ j, j ≠ g.current_player_index →
          (g.provide_hint).2.hint_counts j = g.hint_counts j) ∧
      ((g.provide_hint).1 = none → (g.provide_hint).2.hint_counts = g.hint_counts) ∧
      ((∀ i, 0 ≤ g.hint_counts i) → ∀ i, 0 ≤ (g.provide_hint).2.hint_counts i) := by
  intro g
  cases hw : g.winner with
  | some w =>
    have hpv : g.provide_hint = (none, g) := by
      simp only [Game.provide_hint, hw]
    refine ⟨?_, ?_, ?_, ?_⟩
    · intro _ _; exact hpv
    · intro h hh; rw [hpv] at hh; cases hh
    · intro _; rw [hpv]
    · intro hp i; rw [hpv]; exact hp i
  | none =>
    by_cases hz : g.hint_counts g.current_player_index ≤ 0
    · have hpv : g.provide_hint = (none, g) := by
        simp only [Game.provide_hint, hw, hz, if_true]
      refine ⟨?_, ?_, ?_, ?_⟩
      · intro _ _; exact hpv
      · intro h hh; rw [hpv] at hh; cases hh
      · intro _; rw [hpv]
      · intro hp i; rw [hpv]; exact hp i
    · cases hf : Hint.find_best_move (g.add_hint g.current_player_index (-1)) with
      | none =>
        have hpv : g.provide_hint =
            (none, (g.add_hint g.current_player_index (-1)).add_hint
              g.current_player_index 1) := by
          simp only [Game.provide_hint, hw, hz, if_false, hf]
        refine ⟨fun _ hc => absurd hc hz, ?_, ?_, ?_⟩
        · intro h hh; rw [hpv] at hh; cases hh
        · intro _
          rw [hpv]
          funext j
          by_cases hj : j = g.current_player_index <;>
            simp [Game.add_hint, hj]
        · intro hp i
          rw [hpv]
          by_cases hi : i = g.current_player_index <;> simp [Game.add_hint, hi]
          · have h5 := hp g.current_player_index; omega
          · exact hp i
      | some h0 =>
        have hpv : g.provide_hint = (some h0, g.add_hint g.current_player_index (-1)) := by
          simp only [Game.provide_hint, hw, hz, if_false, hf]
        refine ⟨fun _ hc => absurd hc hz, ?_, ?_, ?_⟩
        · intro h hh
          rw [hpv]
          constructor
          · simp [Game.add_hint]
            omega
          · intro j hj; simp [Game.add_hint, hj]
        · intro hc; rw [hpv] at hc; cases hc
        · intro hp i
          rw [hpv]
          by_cases hi : i = g.current_player_index <;> simp [Game.add_hint, hi]
          · have h5 := hp g.current_player_index; omega
          · exact hp i

/-- Witness for C7 at a concrete input: on a fresh game whose pools are
all 3, pools stay non-negative after a hint request, and forcing the pool
of the current player to zero makes the request a no-op. -/
theorem C7_witness :
    (∀ i, 0 ≤ (((Game.new fun _ => none).provide_hint).2).hint_counts i) ∧
    ({ Game.new (fun _ => none) with hint_counts := fun _ => 0 } : Game).provide_hint =
      (none, { Game.new (fun _ => none) with hint_counts := fun _ => 0 }) :=
  ⟨(C7_hint_credit_accounting (Game.new fun _ => none)).2.2.2
    (fun _ => (by decide : (0 : Int) ≤ 3)),
   (C7_hint_credit_accounting _).1 rfl (by decide)⟩

/-- A card has no capability when its can_use_power predicate holds in no
state; this is the behavior of the base GodCard class of the source,
whose can_use_power constantly returns False. -/
def noAbility (k : GodKind) : Prop :=
  ∀ (b : Board) (w : Worker), can_use_power k b w = false

/-- C1 amended: for every shuffle outcome and every coin flip, exactly
one of the two players receives the fixed Zeus card and the other
receives the first card of the shuffled two-card deck of Artemis and
Demeter; the coin flip decides which player receives Zeus. -/
theorem C1_card_assignment :
    ∀ firstIsArtemis coin : Bool,
      (coin = true → (new_game_cards firstIsArtemis coin).1 = GodKind.zeus) ∧
      (coin = false → (new_game_cards firstIsArtemis coin).2 = GodKind.zeus) ∧
      (((new_game_cards firstIsArtemis coin).1 = GodKind.zeus ∧
        (new_game_cards firstIsArtemis coin).2 ≠ GodKind.zeus ∧
        (new_game_cards firstIsArtemis coin).2 ∈ [GodKind.artemis, GodKind.demeter]) ∨
       ((new_game_cards firstIsArtemis coin).2 = GodKind.zeus ∧
        (new_game_cards firstIsArtemis coin).1 ≠ GodKind.zeus ∧
        (new_game_cards firstIsArtemis coin).1 ∈ [GodKind.artemis, GodKind.demeter])) := by
  intro f c
  cases f <;> cases c <;> simp [new_game_cards]

/-- Witness for C1 at a concrete input: with Artemis drawn first and the
coin true, player 1 receives Zeus. -/
theorem C1_witness : (new_game_cards true true).1 = GodKind.zeus :=
  (C1_card_assignment true true).1 rfl

/-- Counterexample to C1 as stated: at the concrete shuffle and coin flip
(true, true), new_game assigns Zeus to player 1 and Artemis to player 2,
and neither assigned card is the capability-free default card: each has a
state in which its can_use_power predicate holds.  So it is not the case
that one of the two players receives the none-capability default card. -/
theorem C1_counterexample :
    new_game_cards true true = (GodKind.zeus, GodKind.artemis) ∧
    ¬noAbility (new_game_cards true true).1 ∧
    ¬noAbility (new_game_cards true true).2 := by
  refine ⟨rfl, ?_, ?_⟩
  · exact fun h => absurd (h scenarioBoard (Worker.mk 0 (some (2, 2)) none)) (by decide)
  · exact fun h => absurd (h scenarioBoard (Worker.mk 0 (some (2, 2)) none)) (by decide)

/-- The C8 board: every tile is a dome except (0,0), so the in-bounds
query at (0,0) legitimately returns no valid moves and no valid builds. -/
def c8Board : Board :=
  { size := 5,
    grid := fun q => if q = ((0 : Int), (0 : Int)) then Tile.mk 0 none else Tile.mk 4 none }

/-- C8 amended: for every out-of-bounds coordinate, get_block fails with
the explicit out-of-bounds signal none, while get_valid_moves and
get_valid_builds silently return the empty list, the same value an
in-bounds query with no legal targets returns (see the counterexample);
for every in-bounds coordinate get_block returns the tile. -/
theorem C8_out_of_bounds :
    ∀ (b : Board) (p : Pos) (r : Bool),
      (b.is_valid_position p = false →
        b.get_block p = none ∧ b.get_valid_moves p r = [] ∧ b.get_valid_builds p = []) ∧
      (b.is_valid_position p = true → b.get_block p = some (b.grid p)) := by
  intro b p r
  constructor
  · intro h
    refine ⟨?_, ?_, ?_⟩
    · unfold Board.get_block
      simp [h]
    · unfold Board.get_valid_moves
      simp [h]
    · unfold Board.get_valid_builds
      simp [h]
  · exact get_block_of_valid

/-- Counterexample to C8 as stated: the out-of-bounds query at (-1,0)
returns the empty list from get_valid_moves and get_valid_builds, exactly
the value the legitimate in-bounds query at (0,0) returns on a board
whose remaining tiles are domes; so these two queries do not fail with a
signal distinguishable from ordinary data. -/
theorem C8_counterexample :
    c8Board.is_valid_position (-1, 0) = false ∧
    c8Board.is_valid_position (0, 0) = true ∧
    c8Board.get_valid_moves (-1, 0) false = [] ∧
    c8Board.get_valid_moves (0, 0) false = [] ∧
    c8Board.get_valid_builds (-1, 0) = [] ∧
    c8Board.get_valid_builds (0, 0) = [] := by decide

/-- Witness for C8 at a concrete input: the explicit none signal at
(-1,0) and the tile at (0,0). -/
theorem C8_witness :
    c8Board.get_block (-1, 0) = none ∧
    c8Board.get_block (0, 0) = some (Tile.mk 0 none) := by
  refine ⟨((C8_out_of_bounds c8Board (-1, 0) false).1 (by decide)).1, ?_⟩
  rw [(C8_out_of_bounds c8Board (0, 0) false).2 (by decide)]
  decide

lemma Board.set_worker_grid (b : Board) (p : Pos) (w : Option Nat) (q : Pos) :
    (b.set_worker p w).grid q =
      if q = p then { b.grid q with worker := w } else b.grid q := rfl

lemma Board.set_worker_valid (b : Board) (p : Pos) (w : Option Nat) (q : Pos) :
    (b.set_worker p w).is_valid_position q = b.is_valid_position q := rfl

/-- Placing an unplaced worker on a valid, free, non-dome tile succeeds
and has a simple effect: the tile gains the worker and the worker gains
the position. -/
lemma Game.move_to_unplaced (g : Game) (wid : Nat) (p : Pos)
    (hv : g.board.is_valid_position p = true)
    (hw : (g.board.grid p).worker = none)
    (hd : (g.board.grid p).level ≠ domeLevel)
    (hpos : (g.workers wid).position = none) :
    (g.move_to wid p).1 = true ∧
    (g.move_to wid p).2.board = g.board.set_worker p (some wid) ∧
    (g.move_to wid p).2.workers = fun i =>
      if i = wid then Worker.mk (g.workers wid).player (some p) none
      else g.workers i := by
  refine ⟨(Game.move_to_succ_iff g wid p).mpr ⟨hv, hw, hd⟩, ?_, ?_⟩
  · rw [Game.move_to_board_eq g wid p hv hw hd, hpos]
  · rw [Game.move_to_workers g wid p hv hw hd]
    funext i
    by_cases hi : i = wid <;> simp [hi, hpos]

/-- All 25 positions of the 5 by 5 board, row major. -/
def allPositions : List Pos :=
  (List.range 5).flatMap (fun r => (List.range 5).map (fun c => ((r : Int), (c : Int))))

/-- C10: for every fresh two-player session and every shuffle of the 25
board positions, randomly_place_workers places all four workers: each
ends with a position, the four positions are pairwise distinct in-bounds
tiles, and the occupant of each such tile is exactly that worker. -/
theorem C10_random_placement :
    ∀ (cards : Nat → Option GodKind) (shuffled : List Pos),
      shuffled.Perm allPositions →
      ∃ p0 p1 p2 p3 : Pos,
        (((Game.new cards).randomly_place_workers shuffled).workers 0).position = some p0 ∧
        (((Game.new cards).randomly_place_workers shuffled).workers 1).position = some p1 ∧
        (((Game.new cards).randomly_place_workers shuffled).workers 2).position = some p2 ∧
        (((Game.new cards).randomly_place_workers shuffled).workers 3).position = some p3 ∧
        ([p0, p1, p2, p3] : List Pos).Nodup ∧
        (∀ p ∈ ([p0, p1, p2, p3] : List Pos),
          (((Game.new cards).randomly_place_workers shuffled).board).is_valid_position p
            = true) ∧
        ((((Game.new cards).randomly_place_workers shuffled).board.grid p0).worker = some 0) ∧
        ((((Game.new cards).randomly_place_workers shuffled).board.grid p1).worker = some 1) ∧
        ((((Game.new cards).randomly_place_workers shuffled).board.grid p2).worker = some 2) ∧
        ((((Game.new cards).randomly_place_workers shuffled).board.grid p3).worker = some 3) := by
  intro cards shuffled hperm
  have hrevperm : shuffled.reverse.Perm allPositions :=
    (List.reverse_perm shuffled).trans hperm
  have hnodup : shuffled.reverse.Nodup := hrevperm.nodup_iff.mpr (by decide)
  have hlen : shuffled.reverse.length = 25 := by
    rw [hrevperm.length_eq]
    decide
  obtain ⟨a, t1, ht1⟩ := List.exists_of_length_succ _ hlen
  have hlen1 : t1.length = 24 := by
    have h := hlen
    rw [ht1] at h
    simpa using h
  obtain ⟨b, t2, ht2⟩ := List.exists_of_length_succ _ hlen1
  have hlen2 : t2.length = 23 := by
    have h := hlen1
    rw [ht2] at h
    simpa using h
  obtain ⟨c, t3, ht3⟩ := List.exists_of_length_succ _ hlen2
  have hlen3 : t3.length = 22 := by
    have h := hlen2
    rw [ht3] at h
    simpa using h
  obtain ⟨d, t4, ht4⟩ := List.exists_of_length_succ _ hlen3
  have hrev : shuffled.reverse = a :: b :: c :: d :: t4 := by
    rw [ht1, ht2, ht3, ht4]
  rw [hrev] at hnodup
  simp only [List.nodup_cons, List.mem_cons, not_or] at hnodup
  obtain ⟨⟨hab, hac, had, -⟩, ⟨hbc, hbd, -⟩, ⟨hcd, -⟩, -⟩ := hnodup
  have hvalidmem : ∀ p ∈ allPositions,
      ((Game.new cards).board).is_valid_position p = true := by
    intro p hp
    have harith : ∀ q ∈ allPositions, 0 ≤ q.1 ∧ q.1 < 5 ∧ 0 ≤ q.2 ∧ q.2 < 5 := by decide
    obtain ⟨h1, h2, h3, h4⟩ := harith p hp
    simp only [Game.new, Board.is_valid_position, Bool.and_eq_true, decide_eq_true_eq]
    refine ⟨⟨⟨h1, by exact_mod_cast h2⟩, h3⟩, by exact_mod_cast h4⟩
  have hva := hvalidmem a (hrevperm.mem_iff.mp (by rw [hrev]; simp))
  have hvb := hvalidmem b (hrevperm.mem_iff.mp (by rw [hrev]; simp))
  have hvc := hvalidmem c (hrevperm.mem_iff.mp (by rw [hrev]; simp))
  have hvd := hvalidmem d (hrevperm.mem_iff.mp (by rw [hrev]; simp))
  have hg : (Game.new cards).randomly_place_workers shuffled =
      (((((Game.new cards).move_to 0 a).2.move_to 1 b).2.move_to 2 c).2.move_to 3 d).2 := by
    unfold Game.randomly_place_workers
    rw [hrev]
    rfl
  obtain ⟨hs1, hb1, hw1⟩ :=
    Game.move_to_unplaced (Game.new cards) 0 a hva rfl ((by decide : (0 : Nat) ≠ 4)) rfl
  have hv1 : ((((Game.new cards).move_to 0 a).2.board).is_valid_position b) = true := by
    rw [hb1, Board.set_worker_valid]
    exact hvb
  have hw1b : ((((Game.new cards).move_to 0 a).2.board).grid b).worker = none := by
    rw [hb1, Board.set_worker_grid, if_neg (Ne.symm hab)]
    rfl
  have hd1b : ((((Game.new cards).move_to 0 a).2.board).grid b).level ≠ domeLevel := by
    rw [hb1, Board.set_worker_grid, if_neg (Ne.symm hab)]
    exact (by decide : (0 : Nat) ≠ 4)
  have hp1 : ((((Game.new cards).move_to 0 a).2).workers 1).position = none := by
    rw [hw1]
    simp [Game.new]
  obtain ⟨hs2, hb2, hw2⟩ :=
    Game.move_to_unplaced (((Game.new cards).move_to 0 a).2) 1 b hv1 hw1b hd1b hp1
  have hv2 : (((((Game.new cards).move_to 0 a).2.move_to 1 b).2.board).is_valid_position c)
      = true := by
    rw [hb2, Board.set_worker_valid, hb1, Board.set_worker_valid]
    exact hvc
  have hw2c : (((((Game.new cards).move_to 0 a).2.move_to 1 b).2.board).grid c).worker
      = none := by
    rw [hb2, Board.set_worker_grid, if_neg (Ne.symm hbc),
      hb1, Board.set_worker_grid, if_neg (Ne.symm hac)]
    rfl
  have hd2c : (((((Game.new cards).move_to 0 a).2.move_to 1 b).2.board).grid c).level ≠ domeLevel := by
    rw [hb2, Board.set_worker_grid, if_neg (Ne.symm hbc),
      hb1, Board.set_worker_grid, if_neg (Ne.symm hac)]
    exact (by decide : (0 : Nat) ≠ 4)
  have hp2 : (((((Game.new cards).move_to 0 a).2.move_to 1 b).2).workers 2).position
      = none := by
    rw [hw2, hw1]
    simp [Game.new]
  obtain ⟨hs3, hb3, hw3⟩ :=
    Game.move_to_unplaced ((((Game.new cards).move_to 0 a).2.move_to 1 b).2) 2 c
      hv2 hw2c hd2c hp2
  have hv3 : (((((Game.new cards).move_to 0 a).2.move_to 1 b).2.move_to 2 c).2.board.is_valid_position d) = true := by
    rw [hb3, Board.set_worker_valid, hb2, Board.set_worker_valid,
      hb1, Board.set_worker_valid]
    exact hvd
  have hw3d : (((((((Game.new cards).move_to 0 a).2.move_to 1 b).2.move_to 2 c).2.board).grid d).worker) = none := by
    rw [hb3, Board.set_worker_grid, if_neg (Ne.symm hcd),
      hb2, Board.set_worker_grid, if_neg (Ne.symm hbd),
      hb1, Board.set_worker_grid, if_neg (Ne.symm had)]
    rfl
  have hd3d : (((((((Game.new cards).move_to 0 a).2.move_to 1 b).2.move_to 2 c).2.board).grid d).level) ≠ domeLevel := by
    rw [hb3, Board.set_worker_grid, if_neg (Ne.symm hcd),
      hb2, Board.set_worker_grid, if_neg (Ne.symm hbd),
      hb1, Board.set_worker_grid, if_neg (Ne.symm had)]
    exact (by decide : (0 : Nat) ≠ 4)
  have hp3 : ((((((Game.new cards).move_to 0 a).2.move_to 1 b).2.move_to 2 c).2.workers 3).position) = none := by
    rw [hw3, hw2, hw1]
    simp [Game.new]
  obtain ⟨hs4, hb4, hw4⟩ :=
    Game.move_to_unplaced (((((Game.new cards).move_to 0 a).2.move_to 1 b).2.move_to 2 c).2)
      3 d hv3 hw3d hd3d hp3
  refine ⟨a, b, c, d, ?_, ?_, ?_, ?_, ?_, ?_, ?_, ?_, ?_, ?_⟩
  · rw [hg, hw4]
    simp only [if_neg (by decide : ¬(0 : Nat) = 3)]
    rw [hw3]
    simp only [if_neg (by decide : ¬(0 : Nat) = 2)]
    rw [hw2]
    simp only [if_neg (by decide : ¬(0 : Nat) = 1)]
    rw [hw1]
    simp
  · rw [hg, hw4]
    simp only [if_neg (by decide : ¬(1 : Nat) = 3)]
    rw [hw3]
    simp only [if_neg (by decide : ¬(1 : Nat) = 2)]
    rw [hw2]
    simp
  · rw [hg, hw4]
    simp only [if_neg (by decide : ¬(2 : Nat) = 3)]
    rw [hw3]
    simp
  · rw [hg, hw4]
    simp
  · simp only [List.nodup_cons, List.mem_cons, not_or, List.not_mem_nil,
      List.mem_singleton, List.nodup_nil, and_true, not_false_eq_true]
    exact ⟨⟨hab, hac, had⟩, ⟨hbc, hbd⟩, hcd⟩
  · intro p hp
    rw [hg, hb4, Board.set_worker_valid, hb3, Board.set_worker_valid,
      hb2, Board.set_worker_valid, hb1, Board.set_worker_valid]
    simp only [List.mem_cons, List.not_mem_nil, or_false, List.mem_singleton] at hp
    rcases hp with rfl | rfl | rfl | rfl
    · exact hva
    · exact hvb
    · exact hvc
    · exact hvd
  · rw [hg, hb4, Board.set_worker_grid, if_neg had,
      hb3, Board.set_worker_grid, if_neg hac,
      hb2, Board.set_worker_grid, if_neg hab,
      hb1, Board.set_worker_grid, if_pos rfl]
  · rw [hg, hb4, Board.set_worker_grid, if_neg hbd,
      hb3, Board.set_worker_grid, if_neg hbc,
      hb2, Board.set_worker_grid, if_pos rfl]
  · rw [hg, hb4, Board.set_worker_grid, if_neg hcd,
      hb3, Board.set_worker_grid, if_pos rfl]
  · rw [hg, hb4, Board.set_worker_grid, if_pos rfl]

/-- Witness for C10 at a concrete input: the identity shuffle of the full
position list is a permutation of it, so the placement conclusion holds
for a fresh game. -/
theorem C10_witness :
    ∃ p0 p1 p2 p3 : Pos,
      (((Game.new fun _ => none).randomly_place_workers allPositions).workers 0).position
        = some p0 ∧
      (((Game.new fun _ => none).randomly_place_workers allPositions).workers 1).position
        = some p1 ∧
      (((Game.new fun _ => none).randomly_place_workers allPositions).workers 2).position
        = some p2 ∧
      (((Game.new fun _ => none).randomly_place_workers allPositions).workers 3).position
        = some p3 ∧
      ([p0, p1, p2, p3] : List Pos).Nodup ∧
      (∀ p ∈ ([p0, p1, p2, p3] : List Pos),
        ((Game.new fun _ => none).randomly_place_workers allPositions).board.is_valid_position p = true) ∧
      ((((Game.new fun _ => none).randomly_place_workers allPositions).board.grid p0).worker
        = some 0) ∧
      ((((Game.new fun _ => none).randomly_place_workers allPositions).board.grid p1).worker
        = some 1) ∧
      ((((Game.new fun _ => none).randomly_place_workers allPositions).board.grid p2).worker
        = some 2) ∧
      ((((Game.new fun _ => none).randomly_place_workers allPositions).board.grid p3).worker
        = some 3) :=
  C10_random_placement (fun _ => none) allPositions (List.Perm.refl _)

end Santorini
